import Mathlib

/-!
Verification of the channel-unpacking core of UnpackORM (src/UnpackORM.py):
image normalization to RGB/RGBA, preset-driven channel extraction with
optional inversion, alpha-as-height export, grayscale persistence, and
recursive batch discovery. Python strings are Lean `String`s, PIL images
are the `Img` structure below, and the filesystem effects of
`os.makedirs` / `Image.save` are threaded through an explicit `FS` state.
-/

namespace UnpackORM

/-- PIL color modes relevant to this program: 1-bit and 8-bit grayscale
("1", "L"), paletted ("P"), grayscale with alpha ("LA"), and true color
with or without alpha ("RGB", "RGBA"). The code branches only on
P / LA / RGB / RGBA; the grayscale modes stand for the remaining decodable
modes, which the code funnels through a conversion to RGB. -/
inductive Mode where
  | one
  | L
  | P
  | LA
  | RGB
  | RGBA
deriving DecidableEq

/-- Number of samples a pixel of the given mode carries. -/
def Mode.numChannels : Mode → Nat
  | .one => 1
  | .L => 1
  | .P => 1
  | .LA => 2
  | .RGB => 3
  | .RGBA => 4

/-- An in-memory PIL image: its mode, its palette (meaningful only in mode
P; entries are RGB triples) and its pixel rows, each row listing the
samples of one pixel. -/
structure Img where
  mode : Mode
  palette : List (Nat × Nat × Nat)
  pixels : List (List Nat)
deriving DecidableEq

/-- Well-formedness: every pixel has exactly the arity of its mode and
every sample (and palette component) is an 8-bit value. -/
def Img.valid (img : Img) : Prop :=
  (∀ px ∈ img.pixels, px.length = img.mode.numChannels ∧ ∀ v ∈ px, v < 256) ∧
  (∀ e ∈ img.palette, e.1 < 256 ∧ e.2.1 < 256 ∧ e.2.2 < 256)

instance (img : Img) : Decidable img.valid := by
  unfold Img.valid; infer_instance

/-- Pillow's ITU-R 601-2 luma transform as computed in its C core:
`L = (19595 R + 38470 G + 7471 B + 2^15) >> 16`. -/
def lumin (r g b : Nat) : Nat :=
  (19595 * r + 38470 * g + 7471 * b + 32768) / 65536

/-- Palette lookup for a mode-P sample (absent entries read as black,
alpha handling of palettes is not used by this program). -/
def paletteRGB (pal : List (Nat × Nat × Nat)) (i : Nat) : Nat × Nat × Nat :=
  pal.getD i (0, 0, 0)

/-- One pixel of PIL `convert("RGBA")`, by source mode: palette lookup for
P, luminance replication for the grayscale modes, alpha 255 where the
source has none. -/
def pxToRGBA : Mode → List (Nat × Nat × Nat) → List Nat → List Nat
  | .one, _, px => [px.getD 0 0, px.getD 0 0, px.getD 0 0, 255]
  | .L, _, px => [px.getD 0 0, px.getD 0 0, px.getD 0 0, 255]
  | .P, pal, px =>
    let c := paletteRGB pal (px.getD 0 0)
    [c.1, c.2.1, c.2.2, 255]
  | .LA, _, px => [px.getD 0 0, px.getD 0 0, px.getD 0 0, px.getD 1 0]
  | .RGB, _, px => [px.getD 0 0, px.getD 1 0, px.getD 2 0, 255]
  | .RGBA, _, px => [px.getD 0 0, px.getD 1 0, px.getD 2 0, px.getD 3 0]

/-- One pixel of PIL `convert("RGB")`, by source mode. -/
def pxToRGB : Mode → List (Nat × Nat × Nat) → List Nat → List Nat
  | .one, _, px => [px.getD 0 0, px.getD 0 0, px.getD 0 0]
  | .L, _, px => [px.getD 0 0, px.getD 0 0, px.getD 0 0]
  | .P, pal, px =>
    let c := paletteRGB pal (px.getD 0 0)
    [c.1, c.2.1, c.2.2]
  | .LA, _, px => [px.getD 0 0, px.getD 0 0, px.getD 0 0]
  | .RGB, _, px => [px.getD 0 0, px.getD 1 0, px.getD 2 0]
  | .RGBA, _, px => [px.getD 0 0, px.getD 1 0, px.getD 2 0]

/-- One pixel of PIL `convert("L")`, by source mode. -/
def pxToL : Mode → List (Nat × Nat × Nat) → List Nat → List Nat
  | .one, _, px => [px.getD 0 0]
  | .L, _, px => [px.getD 0 0]
  | .P, pal, px =>
    let c := paletteRGB pal (px.getD 0 0)
    [lumin c.1 c.2.1 c.2.2]
  | .LA, _, px => [px.getD 0 0]
  | .RGB, _, px => [lumin (px.getD 0 0) (px.getD 1 0) (px.getD 2 0)]
  | .RGBA, _, px => [lumin (px.getD 0 0) (px.getD 1 0) (px.getD 2 0)]

/-- PIL `Image.convert` for the three target modes this program uses;
other targets never occur. -/
def Img.convert (img : Img) (target : Mode) : Img :=
  match target with
  | .RGBA => ⟨.RGBA, [], img.pixels.map (fun px => pxToRGBA img.mode img.palette px)⟩
  | .RGB => ⟨.RGB, [], img.pixels.map (fun px => pxToRGB img.mode img.palette px)⟩
  | .L => ⟨.L, [], img.pixels.map (fun px => pxToL img.mode img.palette px)⟩
  | _ => img

/-- `load_image_rgb_or_rgba`, after decoding: paletted and
luminance-alpha modes are converted to RGBA; RGBA is kept; anything that
is then not RGB is converted to RGB; RGB passes through. -/
def load_image_rgb_or_rgba (raw : Img) : Img :=
  let img := if raw.mode = Mode.P ∨ raw.mode = Mode.LA then raw.convert Mode.RGBA else raw
  if img.mode = Mode.RGBA then img
  else if ¬ img.mode = Mode.RGB then img.convert Mode.RGB
  else img

/-- The `PRESETS` dict: name to `(AO_from, Roughness_from, Metallic_from)`
in insertion order. -/
def PRESETS : List (String × (String × String × String)) :=
  [("ORM (R=AO, G=Roughness, B=Metallic)", ("R", "G", "B")),
   ("MRA (R=Metallic, G=Roughness, B=AO)", ("B", "G", "R")),
   ("RMA (R=Roughness, G=Metallic, B=AO)", ("B", "R", "G"))]

/-- The default value of `unpack_orm`'s `preset_name` parameter (also the
GUI and CLI default, `list(PRESETS.keys())[0]`). -/
def DEFAULT_PRESET : String := "ORM (R=AO, G=Roughness, B=Metallic)"

/-- Python dict membership-and-indexing over an association list in
insertion order. -/
def dictGet {α : Type} : List (String × α) → String → Option α
  | [], _ => none
  | e :: rest, k => if e.1 = k then some e.2 else dictGet rest k

/-- One band of `img.split()` as a mode-L image (samples at index `i` of
each pixel row). -/
def Img.getBand (img : Img) (i : Nat) : Img :=
  ⟨Mode.L, [], img.pixels.map (fun px => [px.getD i 0])⟩

/-- `channel_by_letter`: `r, g, b = img.split()[:3]` followed by the dict
lookup of the letter. `split` unpacking needs at least three bands
(guaranteed after normalization) and an unknown letter is a KeyError;
both failure modes are `none` here. -/
def channel_by_letter (img : Img) (letter : String) : Option Img :=
  if img.mode.numChannels < 3 then none
  else if letter = "R" then some (img.getBand 0)
  else if letter = "G" then some (img.getBand 1)
  else if letter = "B" then some (img.getBand 2)
  else none

/-- `maybe_invert`: `Image.eval(ch, lambda px: 255 - px)` when requested
(samples are bytes, so the Python subtraction never goes negative and
agrees with truncated subtraction on valid images). -/
def maybe_invert (ch : Img) (do_invert : Bool) : Img :=
  if do_invert then ⟨ch.mode, ch.palette, ch.pixels.map (fun px => px.map (fun v => 255 - v))⟩
  else ch

/-- `posixpath.join` for two components, exactly as Python computes it. -/
def joinPath (a b : String) : String :=
  if b.data.head? = some '/' then b
  else if a.data = [] ∨ a.data.reverse.head? = some '/' then ⟨a.data ++ b.data⟩
  else ⟨a.data ++ '/' :: b.data⟩

/-- `os.path.basename`: everything after the last slash. -/
def basename (p : String) : String :=
  ⟨(p.data.reverse.takeWhile (fun c => c != '/')).reverse⟩

/-- `posixpath.dirname`: everything before the last slash, with trailing
slashes stripped unless the head is all slashes. -/
def dirname (p : String) : String :=
  let revHead := p.data.reverse.dropWhile (fun c => c != '/')
  if revHead.all (fun c => c == '/') then ⟨revHead.reverse⟩
  else ⟨(revHead.dropWhile (fun c => c == '/')).reverse⟩

/-- The split position of `os.path.splitext` on a bare file name: the last
dot, provided some earlier character is not a dot (so leading dots never
open an extension). -/
def splitextPos (cs : List Char) : Option Nat :=
  match cs.reverse.findIdx? (fun c => c == '.') with
  | none => none
  | some k =>
    let d := cs.length - 1 - k
    if (cs.take d).any (fun c => c != '.') then some d else none

/-- `os.path.splitext(p)[0]`. -/
def splitextRoot (p : String) : String :=
  match splitextPos p.data with
  | none => p
  | some d => ⟨p.data.take d⟩

/-- `os.path.splitext(p)[1]`. -/
def splitextExt (p : String) : String :=
  match splitextPos p.data with
  | none => ""
  | some d => ⟨p.data.drop d⟩

/-- `str.lower` on the ASCII strings involved here. -/
def lowerStr (s : String) : String :=
  ⟨s.data.map Char.toLower⟩

/-- `SUPPORTED_EXTS`. -/
def SUPPORTED_EXTS : List String :=
  [".png", ".jpg", ".jpeg", ".tga", ".tif", ".tiff"]

/-- The batch eligibility test applied to a file name:
`os.path.splitext(name)[1].lower() in SUPPORTED_EXTS`. -/
def eligibleName (name : String) : Bool :=
  SUPPORTED_EXTS.contains (lowerStr (splitextExt name))

instance {ε α : Type} [DecidableEq ε] [DecidableEq α] : DecidableEq (Except ε α) := fun a b =>
  match a, b with
  | Except.error x, Except.error y => decidable_of_iff (x = y) (by simp)
  | Except.error _, Except.ok _ => Decidable.isFalse (by simp)
  | Except.ok _, Except.error _ => Decidable.isFalse (by simp)
  | Except.ok x, Except.ok y => decidable_of_iff (x = y) (by simp)

/-- The error kinds the core can surface. -/
inductive UErr where
  | decodeError (msg : String)
  | unknownPreset (name : String)
  | ioError (msg : String)
deriving DecidableEq

/-- The observable filesystem state: the set of existing directories and
the written files with their grayscale contents. -/
structure FS where
  dirs : List String
  files : List (String × List Nat)
deriving DecidableEq

/-- `os.path.exists`: the path is a known directory or a written file. -/
def FS.pathExists (fs : FS) (p : String) : Bool :=
  fs.dirs.contains p || fs.files.any (fun e => e.1 == p)

/-- Read back the most recent write at a path (later writes shadow earlier
ones, as on a real filesystem). -/
def lookupFile : List (String × List Nat) → String → Option (List Nat)
  | [], _ => none
  | e :: rest, p => if e.1 = p then some e.2 else lookupFile rest p

def FS.readFile (fs : FS) (p : String) : Option (List Nat) :=
  lookupFile fs.files p

/-- `save_grayscale`: ensure the buffer is single-channel 8-bit (PIL mode
L, converting if not), then write it at `out_path`. PIL `Image.save`
fails when the directory of the path does not exist and never creates
directories; a path with no directory part writes to the working
directory. The bytes written are the L samples; the container format
(PNG at every call site of this program) is chosen from the path's
extension and not modelled further. -/
def save_grayscale (ch : Img) (out_path : String) (fs : FS) : FS × Except UErr Unit :=
  let chL := if ch.mode = Mode.L then ch else ch.convert Mode.L
  if dirname out_path = "" ∨ fs.dirs.contains (dirname out_path) then
    (⟨fs.dirs, (out_path, chL.pixels.map (fun px => px.getD 0 0)) :: fs.files⟩, Except.ok ())
  else (fs, Except.error (UErr.ioError "cannot write"))

/-- The effect of the guarded `if not os.path.exists(output_dir):
os.makedirs(output_dir, exist_ok=True)` (intermediate-directory creation
for nested absent parents is not observed by any caller here). -/
def mkdirsIf (fs : FS) (d : String) : FS :=
  if fs.pathExists d then fs else ⟨d :: fs.dirs, fs.files⟩

/-- `unpack_orm`. The decode of `input_path` arrives as `decoded` (an
`Except` of the PIL decode failure message), since byte-level decoding is
outside the program. The filesystem is threaded explicitly, so side
effects performed before a failure persist, exactly as the Python
exceptions leave them. -/
def unpack_orm (decoded : Except String Img) (input_path output_dir preset_name : String)
    (invert_roughness invert_metallic export_alpha_as_height : Bool) (fs : FS) :
    FS × Except UErr (String × String × String × Option String) :=
  let fs1 := mkdirsIf fs output_dir
  match decoded with
  | Except.error msg => (fs1, Except.error (UErr.decodeError msg))
  | Except.ok raw =>
    let img := load_image_rgb_or_rgba raw
    let base := splitextRoot (basename input_path)
    let ao_path := joinPath output_dir (base ++ "_AO.png")
    let rough_path := joinPath output_dir (base ++ "_Roughness.png")
    let metal_path := joinPath output_dir (base ++ "_Metallic.png")
    let height_path := joinPath output_dir (base ++ "_Height.png")
    match dictGet PRESETS preset_name with
    | none => (fs1, Except.error (UErr.unknownPreset preset_name))
    | some (ao_from, rough_from, metal_from) =>
      match channel_by_letter img ao_from, channel_by_letter img rough_from,
            channel_by_letter img metal_from with
      | some ao_ch, some rough_ch0, some metal_ch0 =>
        let rough_ch := maybe_invert rough_ch0 invert_roughness
        let metal_ch := maybe_invert metal_ch0 invert_metallic
        match save_grayscale ao_ch ao_path fs1 with
        | (fs2, Except.error e) => (fs2, Except.error e)
        | (fs2, Except.ok _) =>
          match save_grayscale rough_ch rough_path fs2 with
          | (fs3, Except.error e) => (fs3, Except.error e)
          | (fs3, Except.ok _) =>
            match save_grayscale metal_ch metal_path fs3 with
            | (fs4, Except.error e) => (fs4, Except.error e)
            | (fs4, Except.ok _) =>
              if export_alpha_as_height ∧ img.mode = Mode.RGBA then
                match save_grayscale (img.getBand 3) height_path fs4 with
                | (fs5, Except.error e) => (fs5, Except.error e)
                | (fs5, Except.ok _) =>
                  (fs5, Except.ok (ao_path, rough_path, metal_path, some height_path))
              else (fs4, Except.ok (ao_path, rough_path, metal_path, none))
      | _, _, _ => (fs1, Except.error (UErr.ioError "KeyError"))

/-- A directory snapshot: the files of a node and its named
subdirectories, as `os.walk` sees them. -/
inductive DirTree where
  | node (files : List String) (subdirs : List (String × DirTree))

mutual

/-- `os.walk(folder)` restricted to what the program reads: the top-down
sequence of `(dirpath, filenames)` pairs, subdirectory paths joined onto
the parent path. -/
def DirTree.walk (p : String) : DirTree → List (String × List String)
  | .node fs subs => (p, fs) :: walkList p subs

def walkList (p : String) : List (String × DirTree) → List (String × List String)
  | [] => []
  | e :: rest => DirTree.walk (joinPath p e.1) e.2 ++ walkList p rest

end

/-- `iter_images_in_folder` (and the identical loop of `run_cli`): every
walked file whose extension is supported, joined onto its directory
path, in traversal order. -/
def iter_images_in_folder (folder : String) (t : DirTree) : List String :=
  (t.walk folder).flatMap
    (fun pr => (pr.2.filter eligibleName).map (fun name => joinPath pr.1 name))

/-- Every file path under the root, with no extension filter (the
specification-side universe the batch filter selects from). -/
def allFilesUnder (folder : String) (t : DirTree) : List String :=
  (t.walk folder).flatMap (fun pr => pr.2.map (fun name => joinPath pr.1 name))

/-- The batch driver loop shared by `run_cli --batch` and the GUI batch
branch: unpack each discovered file with the one configuration, counting
successes and keeping the first result (the GUI preview); the first
failure aborts the batch, as an uncaught Python exception does. -/
def batchLoop (decode : String → Except String Img) (output_dir preset_name : String)
    (ir im ah : Bool) :
    List String → FS → Nat → Option (String × String × String × Option String) →
    FS × Except UErr (Nat × Option (String × String × String × Option String))
  | [], fs, n, fr => (fs, Except.ok (n, fr))
  | p :: rest, fs, n, fr =>
    match unpack_orm (decode p) p output_dir preset_name ir im ah fs with
    | (fs2, Except.error e) => (fs2, Except.error e)
    | (fs2, Except.ok r) =>
      batchLoop decode output_dir preset_name ir im ah rest fs2 (n + 1)
        (match fr with | some r0 => some r0 | none => some r)

/-- Batch processing: `run_cli` first runs `os.makedirs(out, exist_ok=True)`,
then iterates `iter_images_in_folder`. -/
def run_batch (decode : String → Except String Img) (folder : String) (t : DirTree)
    (output_dir preset_name : String) (ir im ah : Bool) (fs : FS) :
    FS × Except UErr (Nat × Option (String × String × String × Option String)) :=
  batchLoop decode output_dir preset_name ir im ah (iter_images_in_folder folder t)
    (mkdirsIf fs output_dir) 0 none

/-- The output path `unpack_orm` derives from the output directory, the
input file's base name, and a suffix. -/
def outPath (D ip sfx : String) : String :=
  joinPath D (splitextRoot (basename ip) ++ sfx)

/-- Specification-side letter-to-channel-index table. -/
def letterIdx (l : String) : Nat :=
  if l = "R" then 0 else if l = "G" then 1 else 2

/-- Specification-side channel read: the samples of channel `i` across the
image. -/
def Img.chan (img : Img) (i : Nat) : List Nat :=
  img.pixels.map (fun px => px.getD i 0)

/-- Specification-side inversion. -/
def applyInv (b : Bool) (l : List Nat) : List Nat :=
  if b then l.map (fun v => 255 - v) else l

/-- An output directory string with no trailing slash (what the drivers
hand the core; with a trailing slash Python writes the same files under
a differently spelled prefix). -/
def goodDir (d : String) : Prop :=
  d.data ≠ [] ∧ d.data.reverse.head? ≠ some '/'

instance (d : String) : Decidable (goodDir d) := by
  unfold goodDir; infer_instance

theorem takeWhile_all_append (xs ys : List Char) (h : ∀ c ∈ xs, c ≠ '/') :
    (xs ++ ys).takeWhile (fun c => c != '/') = xs ++ ys.takeWhile (fun c => c != '/') := by
  induction xs with
  | nil => simp
  | cons x xs ih =>
    have hx : (x != '/') = true := by
      simpa using h x (List.mem_cons_self _ _)
    simp [List.takeWhile_cons, hx, ih (fun c hc => h c (List.mem_cons_of_mem _ hc))]

theorem dropWhile_all_append (xs ys : List Char) (h : ∀ c ∈ xs, c ≠ '/') :
    (xs ++ ys).dropWhile (fun c => c != '/') = ys.dropWhile (fun c => c != '/') := by
  induction xs with
  | nil => simp
  | cons x xs ih =>
    have hx : (x != '/') = true := by
      simpa using h x (List.mem_cons_self _ _)
    simp [List.dropWhile_cons, hx, ih (fun c hc => h c (List.mem_cons_of_mem _ hc))]

theorem head?_ne_slash (s : String) (h : '/' ∉ s.data) : s.data.head? ≠ some '/' := by
  cases hd : s.data with
  | nil => simp
  | cons c cs =>
    intro hc
    simp only [List.head?] at hc
    apply h
    rw [hd]
    injection hc with hc
    rw [hc]
    exact List.mem_cons_self _ _

theorem strData_append (s t : String) : (s ++ t).data = s.data ++ t.data := rfl

theorem basename_mk (l : List Char) :
    basename ⟨l⟩ = ⟨(l.reverse.takeWhile (fun c => c != '/')).reverse⟩ := rfl

theorem strMk_data (s : String) : (⟨s.data⟩ : String) = s := rfl

/-- Joining a slash-free component onto a good directory is plain
concatenation with one separator. -/
theorem joinPath_eq (D s : String) (hD : goodDir D) (hs : '/' ∉ s.data) :
    joinPath D s = ⟨D.data ++ '/' :: s.data⟩ := by
  unfold joinPath
  rw [if_neg (head?_ne_slash s hs), if_neg]
  simp only [not_or]
  exact ⟨hD.1, hD.2⟩

theorem basename_join (D s : String) (hs : '/' ∉ s.data) :
    basename (joinPath D s) = s := by
  have hrev : ∀ c ∈ s.data.reverse, c ≠ '/' := by
    intro c hc h
    exact hs (by simpa [h] using List.mem_reverse.mp hc)
  unfold joinPath
  rw [if_neg (head?_ne_slash s hs)]
  by_cases hC : D.data = [] ∨ D.data.reverse.head? = some '/'
  · rw [if_pos hC, basename_mk, List.reverse_append, takeWhile_all_append _ _ hrev]
    have h3 : D.data.reverse.takeWhile (fun c => c != '/') = [] := by
      rcases hC with h | h
      · simp [h]
      · rcases hd : D.data.reverse with _ | ⟨c, cs⟩
        · simp
        · rw [hd] at h
          injection h with h
          rw [h] at hd ⊢
          simp [List.takeWhile_cons]
    rw [h3, List.append_nil, List.reverse_reverse, strMk_data]
  · rw [if_neg hC, basename_mk]
    have h1 : (D.data ++ '/' :: s.data).reverse = s.data.reverse ++ '/' :: D.data.reverse := by
      rw [List.reverse_append, List.reverse_cons]
      simp
    rw [h1, takeWhile_all_append _ _ hrev]
    have h2 : ('/' :: D.data.reverse).takeWhile (fun c => c != '/') = [] := by
      simp [List.takeWhile_cons]
    rw [h2, List.append_nil, List.reverse_reverse, strMk_data]

theorem dirname_mk (l : List Char) :
    dirname ⟨l⟩ =
      (if (l.reverse.dropWhile (fun c => c != '/')).all (fun c => c == '/') then
        ⟨(l.reverse.dropWhile (fun c => c != '/')).reverse⟩
      else
        ⟨((l.reverse.dropWhile (fun c => c != '/')).dropWhile (fun c => c == '/')).reverse⟩ :
        String) := rfl

theorem dirname_join (D s : String) (hD : goodDir D) (hs : '/' ∉ s.data) :
    dirname (joinPath D s) = D := by
  have hrev : ∀ c ∈ s.data.reverse, c ≠ '/' := by
    intro c hc h
    exact hs (by simpa [h] using List.mem_reverse.mp hc)
  obtain ⟨c, cs, hd, hc⟩ : ∃ c cs, D.data.reverse = c :: cs ∧ c ≠ '/' := by
    rcases he : D.data.reverse with _ | ⟨c, cs⟩
    · exact absurd (by simpa using congrArg List.reverse he) hD.1
    · refine ⟨c, cs, rfl, fun h => hD.2 ?_⟩
      rw [he, h]
      rfl
  rw [joinPath_eq D s hD hs, dirname_mk]
  have h1 : (D.data ++ '/' :: s.data).reverse = s.data.reverse ++ '/' :: D.data.reverse := by
    rw [List.reverse_append, List.reverse_cons]
    simp
  rw [h1, dropWhile_all_append _ _ hrev]
  have h2 : ('/' :: D.data.reverse).dropWhile (fun c => c != '/') = '/' :: D.data.reverse := by
    simp [List.dropWhile_cons]
  rw [h2]
  have h3 : (('/' : Char) :: D.data.reverse).all (fun c => c == '/') = false := by
    rw [hd]
    simp [List.all_cons, hc]
  rw [if_neg (by rw [h3]; exact Bool.false_ne_true)]
  have h4 : (('/' : Char) :: D.data.reverse).dropWhile (fun c => c == '/') = D.data.reverse := by
    rw [List.dropWhile_cons]
    simp only [beq_self_eq_true, if_true]
    rw [hd, List.dropWhile_cons, if_neg (by simp [hc])]
  rw [h4, List.reverse_reverse, strMk_data]

theorem joinPath_ne (D s₁ s₂ : String) (hD : goodDir D) (h1 : '/' ∉ s₁.data)
    (h2 : '/' ∉ s₂.data) (hne : s₁.data ≠ s₂.data) :
    joinPath D s₁ ≠ joinPath D s₂ := by
  rw [joinPath_eq D s₁ hD h1, joinPath_eq D s₂ hD h2]
  intro h
  have h := congrArg String.data h
  have := List.append_cancel_left h
  simp only [List.cons.injEq, true_and] at this
  exact hne this

theorem basename_no_slash (p : String) : '/' ∉ (basename p).data := by
  unfold basename
  intro h
  rw [List.mem_reverse] at h
  have := List.mem_takeWhile_imp h
  simp at this

theorem splitextRoot_no_slash (p : String) (h : '/' ∉ p.data) :
    '/' ∉ (splitextRoot p).data := by
  unfold splitextRoot
  split
  · exact h
  · intro hm
    exact h (List.mem_of_mem_take hm)

theorem no_slash_append (s t : String) (hs : '/' ∉ s.data) (ht : '/' ∉ t.data) :
    '/' ∉ (s ++ t).data := by
  rw [strData_append]
  intro h
  rcases List.mem_append.mp h with h | h
  · exact hs h
  · exact ht h

/-- Every triple registered in `PRESETS` draws its three letters from
the set R, G, B. -/
theorem dictGet_PRESETS_letters (pname : String) (t : String × String × String)
    (h : dictGet PRESETS pname = some t) :
    (t.1 = "R" ∨ t.1 = "G" ∨ t.1 = "B") ∧
    (t.2.1 = "R" ∨ t.2.1 = "G" ∨ t.2.1 = "B") ∧
    (t.2.2 = "R" ∨ t.2.2 = "G" ∨ t.2.2 = "B") := by
  simp only [PRESETS, dictGet] at h
  split_ifs at h <;> cases h <;> decide

/-- The normalizer always lands in RGB or RGBA. -/
theorem load_mode (raw : Img) :
    (load_image_rgb_or_rgba raw).mode = Mode.RGB ∨
    (load_image_rgb_or_rgba raw).mode = Mode.RGBA := by
  rcases raw with ⟨m, pal, px⟩
  cases m <;> simp [load_image_rgb_or_rgba, Img.convert]

theorem load_numChannels (raw : Img) :
    3 ≤ (load_image_rgb_or_rgba raw).mode.numChannels := by
  rcases load_mode raw with h | h <;> rw [h] <;> decide

/-- Images already in RGB or RGBA pass through the normalizer unchanged. -/
theorem load_passthrough (raw : Img) (h : raw.mode = Mode.RGB ∨ raw.mode = Mode.RGBA) :
    load_image_rgb_or_rgba raw = raw := by
  rcases raw with ⟨m, pal, px⟩
  rcases h with h | h <;> simp only at h <;> subst h <;>
    simp [load_image_rgb_or_rgba]

theorem channel_by_letter_eq (img : Img) (h3 : 3 ≤ img.mode.numChannels) (l : String)
    (hl : l = "R" ∨ l = "G" ∨ l = "B") :
    channel_by_letter img l = some (img.getBand (letterIdx l)) := by
  have hn : ¬ img.mode.numChannels < 3 := by omega
  rcases hl with h | h | h <;> subst h <;> simp [channel_by_letter, letterIdx, hn]

theorem save_grayscale_ok (ch : Img) (hmode : ch.mode = Mode.L) (p : String) (fs : FS)
    (h : fs.dirs.contains (dirname p) = true) :
    save_grayscale ch p fs =
      (⟨fs.dirs, (p, ch.pixels.map (fun px => px.getD 0 0)) :: fs.files⟩, Except.ok ()) := by
  unfold save_grayscale
  rw [if_pos hmode]
  dsimp only
  rw [if_pos (Or.inr h)]

theorem save_grayscale_dirs (ch : Img) (p : String) (fs : FS) :
    (save_grayscale ch p fs).1.dirs = fs.dirs := by
  unfold save_grayscale
  dsimp only
  split <;> rfl

/-- The sample list written for an extracted (possibly inverted) band. -/
theorem getBand_samples (img : Img) (i : Nat) :
    (img.getBand i).pixels.map (fun px => px.getD 0 0) = img.chan i := by
  simp [Img.getBand, Img.chan, List.map_map]

theorem maybe_invert_samples (img : Img) (i : Nat) (b : Bool) :
    (maybe_invert (img.getBand i) b).pixels.map (fun px => px.getD 0 0) =
      applyInv b (img.chan i) := by
  cases b
  · rw [show maybe_invert (img.getBand i) false = img.getBand i from rfl, getBand_samples]
    rfl
  · simp [maybe_invert, applyInv, Img.getBand, Img.chan, List.map_map]

theorem maybe_invert_mode (ch : Img) (b : Bool) : (maybe_invert ch b).mode = ch.mode := by
  cases b <;> simp [maybe_invert]

theorem getBand_mode (img : Img) (i : Nat) : (img.getBand i).mode = Mode.L := rfl

theorem mkdirsIf_contains (fs : FS) (D : String)
    (hfs : fs.dirs.contains D = true ∨ fs.pathExists D = false) :
    (mkdirsIf fs D).dirs.contains D = true := by
  unfold mkdirsIf
  rcases hfs with h | h
  · have hex : fs.pathExists D = true := by
      unfold FS.pathExists
      rw [h, Bool.true_or]
    rw [if_pos hex]
    exact h
  · rw [if_neg (by rw [h]; exact Bool.false_ne_true)]
    simp

/-- The complete behavior of a successful `unpack_orm` run: the output
directory is ensured, then the three (or four) grayscale files are
written with the extracted channel samples, and their paths are
returned. -/
theorem unpack_orm_ok (img : Img) (ip D pname af rf mf : String) (ir im eh : Bool) (fs : FS)
    (hp : dictGet PRESETS pname = some (af, rf, mf))
    (hD : goodDir D)
    (hfs : fs.dirs.contains D = true ∨ fs.pathExists D = false) :
    unpack_orm (Except.ok img) ip D pname ir im eh fs =
      (⟨(mkdirsIf fs D).dirs,
        (if eh = true ∧ (load_image_rgb_or_rgba img).mode = Mode.RGBA then
          [(outPath D ip "_Height.png", (load_image_rgb_or_rgba img).chan 3)]
        else []) ++
        (outPath D ip "_Metallic.png",
          applyInv im ((load_image_rgb_or_rgba img).chan (letterIdx mf))) ::
        (outPath D ip "_Roughness.png",
          applyInv ir ((load_image_rgb_or_rgba img).chan (letterIdx rf))) ::
        (outPath D ip "_AO.png", (load_image_rgb_or_rgba img).chan (letterIdx af)) ::
        (mkdirsIf fs D).files⟩,
       Except.ok
         (outPath D ip "_AO.png", outPath D ip "_Roughness.png", outPath D ip "_Metallic.png",
          if eh = true ∧ (load_image_rgb_or_rgba img).mode = Mode.RGBA then
            some (outPath D ip "_Height.png")
          else none)) := by
  have hnum := load_numChannels img
  have hlet := dictGet_PRESETS_letters pname (af, rf, mf) hp
  have hbase : '/' ∉ (splitextRoot (basename ip)).data :=
    splitextRoot_no_slash _ (basename_no_slash ip)
  have hsa : '/' ∉ (splitextRoot (basename ip) ++ "_AO.png").data :=
    no_slash_append _ _ hbase (by decide)
  have hsr : '/' ∉ (splitextRoot (basename ip) ++ "_Roughness.png").data :=
    no_slash_append _ _ hbase (by decide)
  have hsm : '/' ∉ (splitextRoot (basename ip) ++ "_Metallic.png").data :=
    no_slash_append _ _ hbase (by decide)
  have hsh : '/' ∉ (splitextRoot (basename ip) ++ "_Height.png").data :=
    no_slash_append _ _ hbase (by decide)
  have hda := dirname_join D _ hD hsa
  have hdr := dirname_join D _ hD hsr
  have hdm := dirname_join D _ hD hsm
  have hdh := dirname_join D _ hD hsh
  have hc := mkdirsIf_contains fs D hfs
  unfold unpack_orm
  dsimp only
  rw [hp]
  dsimp only
  rw [channel_by_letter_eq _ hnum af hlet.1, channel_by_letter_eq _ hnum rf hlet.2.1,
    channel_by_letter_eq _ hnum mf hlet.2.2]
  dsimp only
  rw [save_grayscale_ok _ rfl _ _ (by rw [hda]; exact hc)]
  dsimp only
  rw [save_grayscale_ok _ (by rw [maybe_invert_mode]; rfl) _ _ (by rw [hdr]; exact hc)]
  dsimp only
  rw [save_grayscale_ok _ (by rw [maybe_invert_mode]; rfl) _ _ (by rw [hdm]; exact hc)]
  dsimp only
  rw [getBand_samples, maybe_invert_samples, maybe_invert_samples]
  by_cases hC : eh = true ∧ (load_image_rgb_or_rgba img).mode = Mode.RGBA
  · rw [if_pos hC, if_pos hC, if_pos hC]
    rw [save_grayscale_ok _ rfl _ _ (by rw [hdh]; exact hc)]
    dsimp only
    rw [getBand_samples]
    rfl
  · rw [if_neg hC, if_neg hC, if_neg hC]
    rfl

theorem lookupFile_cons_ne (e : String × List Nat) (rest : List (String × List Nat))
    (p : String) (h : e.1 ≠ p) : lookupFile (e :: rest) p = lookupFile rest p := by
  simp [lookupFile, h]

theorem lookupFile_cons_eq (e : String × List Nat) (rest : List (String × List Nat)) :
    lookupFile (e :: rest) e.1 = some e.2 := by
  simp [lookupFile]

theorem outPath_ne (D ip s₁ s₂ : String) (hD : goodDir D) (h1 : '/' ∉ s₁.data)
    (h2 : '/' ∉ s₂.data) (hne : s₁.data ≠ s₂.data) :
    outPath D ip s₁ ≠ outPath D ip s₂ := by
  have hbase : '/' ∉ (splitextRoot (basename ip)).data :=
    splitextRoot_no_slash _ (basename_no_slash ip)
  unfold outPath
  apply joinPath_ne D _ _ hD (no_slash_append _ _ hbase h1) (no_slash_append _ _ hbase h2)
  rw [strData_append, strData_append]
  intro h
  exact hne (List.append_cancel_left h)

/-- Reading back the four output files from the file list a successful
`unpack_orm` leaves behind. -/
theorem readFile_unpack (D ip : String) (hD : goodDir D) (C : Prop) [Decidable C]
    (c3 cm cr ca : List Nat) (rest : List (String × List Nat)) :
    lookupFile ((if C then [(outPath D ip "_Height.png", c3)] else []) ++
        (outPath D ip "_Metallic.png", cm) :: (outPath D ip "_Roughness.png", cr) ::
        (outPath D ip "_AO.png", ca) :: rest) (outPath D ip "_AO.png") = some ca ∧
    lookupFile ((if C then [(outPath D ip "_Height.png", c3)] else []) ++
        (outPath D ip "_Metallic.png", cm) :: (outPath D ip "_Roughness.png", cr) ::
        (outPath D ip "_AO.png", ca) :: rest) (outPath D ip "_Roughness.png") = some cr ∧
    lookupFile ((if C then [(outPath D ip "_Height.png", c3)] else []) ++
        (outPath D ip "_Metallic.png", cm) :: (outPath D ip "_Roughness.png", cr) ::
        (outPath D ip "_AO.png", ca) :: rest) (outPath D ip "_Metallic.png") = some cm ∧
    (C → lookupFile ((if C then [(outPath D ip "_Height.png", c3)] else []) ++
        (outPath D ip "_Metallic.png", cm) :: (outPath D ip "_Roughness.png", cr) ::
        (outPath D ip "_AO.png", ca) :: rest) (outPath D ip "_Height.png") = some c3) := by
  have hHM := outPath_ne D ip "_Height.png" "_Metallic.png" hD (by decide) (by decide) (by decide)
  have hHR := outPath_ne D ip "_Height.png" "_Roughness.png" hD (by decide) (by decide) (by decide)
  have hHA := outPath_ne D ip "_Height.png" "_AO.png" hD (by decide) (by decide) (by decide)
  have hMR := outPath_ne D ip "_Metallic.png" "_Roughness.png" hD (by decide) (by decide) (by decide)
  have hMA := outPath_ne D ip "_Metallic.png" "_AO.png" hD (by decide) (by decide) (by decide)
  have hRA := outPath_ne D ip "_Roughness.png" "_AO.png" hD (by decide) (by decide) (by decide)
  by_cases hC : C
  · rw [if_pos hC]
    refine ⟨?_, ?_, ?_, fun _ => ?_⟩
    · rw [List.singleton_append, lookupFile_cons_ne _ _ _ hHA, lookupFile_cons_ne _ _ _ hMA,
        lookupFile_cons_ne _ _ _ hRA]
      exact lookupFile_cons_eq _ _
    · rw [List.singleton_append, lookupFile_cons_ne _ _ _ hHR, lookupFile_cons_ne _ _ _ hMR]
      exact lookupFile_cons_eq _ _
    · rw [List.singleton_append, lookupFile_cons_ne _ _ _ hHM]
      exact lookupFile_cons_eq _ _
    · rw [List.singleton_append]
      exact lookupFile_cons_eq _ _
  · rw [if_neg hC]
    refine ⟨?_, ?_, ?_, fun h => absurd h hC⟩
    · rw [List.nil_append, lookupFile_cons_ne _ _ _ hMA, lookupFile_cons_ne _ _ _ hRA]
      exact lookupFile_cons_eq _ _
    · rw [List.nil_append, lookupFile_cons_ne _ _ _ hMR]
      exact lookupFile_cons_eq _ _
    · rw [List.nil_append]
      exact lookupFile_cons_eq _ _

theorem getD_lt (px : List Nat) (h : ∀ v ∈ px, v < 256) (i : Nat) : px.getD i 0 < 256 := by
  induction px generalizing i with
  | nil => simp [List.getD_nil]
  | cons x xs ih =>
    cases i with
    | zero => simpa using h x (List.mem_cons_self _ _)
    | succ j =>
      rw [List.getD_cons_succ]
      exact ih (fun v hv => h v (List.mem_cons_of_mem _ hv)) j

/-- All samples of any channel of a valid image are 8-bit. -/
theorem chan_lt (img : Img) (hval : img.valid) (i : Nat) :
    ∀ v ∈ img.chan i, v < 256 := by
  intro v hv
  simp only [Img.chan, List.mem_map] at hv
  obtain ⟨px, hpx, hs⟩ := hv
  rw [← hs]
  exact getD_lt px (hval.1 px hpx).2 i

theorem applyInv_lt (b : Bool) (l : List Nat) (h : ∀ v ∈ l, v < 256) :
    ∀ v ∈ applyInv b l, v < 256 := by
  cases b
  · simpa [applyInv] using h
  · intro v hv
    simp only [applyInv, if_true, List.mem_map] at hv
    obtain ⟨a, _, hs⟩ := hv
    omega

/-- C1: for every normalized input image, every registered preset and
every setting of the invert flags, the AO, Roughness and Metallic files
written by `unpack_orm` are single-channel 8-bit buffers (flat sample
lists with every sample below 256) whose samples exactly equal the
source channel selected by the preset's corresponding letter (R = index
0, G = index 1, B = index 2), with every sample `v` replaced by `255 - v`
only for Roughness and Metallic and only when the corresponding invert
flag is set. -/
theorem c1_channel_extraction (img : Img) (ip D pname af rf mf : String)
    (ir im eh : Bool) (fs : FS)
    (hmode : img.mode = Mode.RGB ∨ img.mode = Mode.RGBA) (hval : img.valid)
    (hp : dictGet PRESETS pname = some (af, rf, mf)) (hD : goodDir D)
    (hfs : fs.dirs.contains D = true ∨ fs.pathExists D = false) :
    ∃ hres,
      (unpack_orm (Except.ok img) ip D pname ir im eh fs).2 =
        Except.ok (outPath D ip "_AO.png", outPath D ip "_Roughness.png",
          outPath D ip "_Metallic.png", hres) ∧
      (unpack_orm (Except.ok img) ip D pname ir im eh fs).1.readFile
          (outPath D ip "_AO.png") = some (img.chan (letterIdx af)) ∧
      (unpack_orm (Except.ok img) ip D pname ir im eh fs).1.readFile
          (outPath D ip "_Roughness.png") = some (applyInv ir (img.chan (letterIdx rf))) ∧
      (unpack_orm (Except.ok img) ip D pname ir im eh fs).1.readFile
          (outPath D ip "_Metallic.png") = some (applyInv im (img.chan (letterIdx mf))) ∧
      (∀ v ∈ img.chan (letterIdx af), v < 256) ∧
      (∀ v ∈ applyInv ir (img.chan (letterIdx rf)), v < 256) ∧
      (∀ v ∈ applyInv im (img.chan (letterIdx mf)), v < 256) := by
  have hmaster := unpack_orm_ok img ip D pname af rf mf ir im eh fs hp hD hfs
  rw [load_passthrough img hmode] at hmaster
  have hread := readFile_unpack D ip hD (eh = true ∧ img.mode = Mode.RGBA)
    (img.chan 3) (applyInv im (img.chan (letterIdx mf)))
    (applyInv ir (img.chan (letterIdx rf))) (img.chan (letterIdx af)) (mkdirsIf fs D).files
  refine ⟨if eh = true ∧ img.mode = Mode.RGBA then some (outPath D ip "_Height.png") else none,
    ?_, ?_, ?_, ?_, ?_, ?_, ?_⟩
  · rw [hmaster]
  · rw [hmaster]
    exact hread.1
  · rw [hmaster]
    exact hread.2.1
  · rw [hmaster]
    exact hread.2.2.1
  · exact chan_lt img hval _
  · exact applyInv_lt _ _ (chan_lt img hval _)
  · exact applyInv_lt _ _ (chan_lt img hval _)

/-- Witness for C1 at the spec's own scenario image (RGBA pixels, preset
ORM, metallic inverted). -/
theorem c1_channel_extraction_witness :
    ∃ hres,
      (unpack_orm (Except.ok ⟨Mode.RGBA, [], [[10, 20, 30, 40], [11, 21, 31, 41]]⟩)
          "tex.png" "out" "ORM (R=AO, G=Roughness, B=Metallic)" false true true
          ⟨[], []⟩).2 =
        Except.ok (outPath "out" "tex.png" "_AO.png", outPath "out" "tex.png" "_Roughness.png",
          outPath "out" "tex.png" "_Metallic.png", hres) ∧
      (unpack_orm (Except.ok ⟨Mode.RGBA, [], [[10, 20, 30, 40], [11, 21, 31, 41]]⟩)
          "tex.png" "out" "ORM (R=AO, G=Roughness, B=Metallic)" false true true
          ⟨[], []⟩).1.readFile (outPath "out" "tex.png" "_AO.png") =
        some ((⟨Mode.RGBA, [], [[10, 20, 30, 40], [11, 21, 31, 41]]⟩ : Img).chan (letterIdx "R")) ∧
      (unpack_orm (Except.ok ⟨Mode.RGBA, [], [[10, 20, 30, 40], [11, 21, 31, 41]]⟩)
          "tex.png" "out" "ORM (R=AO, G=Roughness, B=Metallic)" false true true
          ⟨[], []⟩).1.readFile (outPath "out" "tex.png" "_Roughness.png") =
        some (applyInv false
          ((⟨Mode.RGBA, [], [[10, 20, 30, 40], [11, 21, 31, 41]]⟩ : Img).chan (letterIdx "G"))) ∧
      (unpack_orm (Except.ok ⟨Mode.RGBA, [], [[10, 20, 30, 40], [11, 21, 31, 41]]⟩)
          "tex.png" "out" "ORM (R=AO, G=Roughness, B=Metallic)" false true true
          ⟨[], []⟩).1.readFile (outPath "out" "tex.png" "_Metallic.png") =
        some (applyInv true
          ((⟨Mode.RGBA, [], [[10, 20, 30, 40], [11, 21, 31, 41]]⟩ : Img).chan (letterIdx "B"))) ∧
      (∀ v ∈ (⟨Mode.RGBA, [], [[10, 20, 30, 40], [11, 21, 31, 41]]⟩ : Img).chan (letterIdx "R"),
        v < 256) ∧
      (∀ v ∈ applyInv false
          ((⟨Mode.RGBA, [], [[10, 20, 30, 40], [11, 21, 31, 41]]⟩ : Img).chan (letterIdx "G")),
        v < 256) ∧
      (∀ v ∈ applyInv true
          ((⟨Mode.RGBA, [], [[10, 20, 30, 40], [11, 21, 31, 41]]⟩ : Img).chan (letterIdx "B")),
        v < 256) :=
  c1_channel_extraction ⟨Mode.RGBA, [], [[10, 20, 30, 40], [11, 21, 31, 41]]⟩
    "tex.png" "out" "ORM (R=AO, G=Roughness, B=Metallic)" "R" "G" "B" false true true
    ⟨[], []⟩ (by decide) (by decide) (by decide) (by decide) (by decide)

/-- C2: the Height output of `unpack_orm` is present precisely when
`export_alpha_as_height` is set and the normalized image has 4 channels;
when present the written Height file is byte-for-byte the alpha channel
(channel index 3), uninverted and 8-bit; when either condition fails the
height slot of the result is `none` and the call still succeeds. -/
theorem c2_height_output (img : Img) (ip D pname af rf mf : String)
    (ir im eh : Bool) (fs : FS)
    (hmode : img.mode = Mode.RGB ∨ img.mode = Mode.RGBA) (hval : img.valid)
    (hp : dictGet PRESETS pname = some (af, rf, mf)) (hD : goodDir D)
    (hfs : fs.dirs.contains D = true ∨ fs.pathExists D = false) :
    ∃ aoP rP mP hres,
      (unpack_orm (Except.ok img) ip D pname ir im eh fs).2 =
        Except.ok (aoP, rP, mP, hres) ∧
      (hres.isSome = true ↔ eh = true ∧ img.mode.numChannels = 4) ∧
      (eh = true → img.mode.numChannels = 4 →
        hres = some (outPath D ip "_Height.png") ∧
        (unpack_orm (Except.ok img) ip D pname ir im eh fs).1.readFile
          (outPath D ip "_Height.png") = some (img.chan 3) ∧
        (∀ v ∈ img.chan 3, v < 256)) := by
  have hmaster := unpack_orm_ok img ip D pname af rf mf ir im eh fs hp hD hfs
  rw [load_passthrough img hmode] at hmaster
  have hread := readFile_unpack D ip hD (eh = true ∧ img.mode = Mode.RGBA)
    (img.chan 3) (applyInv im (img.chan (letterIdx mf)))
    (applyInv ir (img.chan (letterIdx rf))) (img.chan (letterIdx af)) (mkdirsIf fs D).files
  have h4 : img.mode.numChannels = 4 ↔ img.mode = Mode.RGBA := by
    rcases hmode with h | h <;> rw [h] <;> decide
  refine ⟨outPath D ip "_AO.png", outPath D ip "_Roughness.png", outPath D ip "_Metallic.png",
    if eh = true ∧ img.mode = Mode.RGBA then some (outPath D ip "_Height.png") else none,
    ?_, ?_, ?_⟩
  · rw [hmaster]
  · by_cases hC : eh = true ∧ img.mode = Mode.RGBA
    · rw [if_pos hC]
      simp [hC.1, h4.mpr hC.2]
    · rw [if_neg hC]
      have hn : ¬ (eh = true ∧ img.mode.numChannels = 4) := fun h => hC ⟨h.1, h4.mp h.2⟩
      simp [hn]
  · intro h1 h2
    have hC : eh = true ∧ img.mode = Mode.RGBA := ⟨h1, h4.mp h2⟩
    refine ⟨by rw [if_pos hC], ?_, chan_lt img hval 3⟩
    rw [hmaster]
    exact hread.2.2.2 hC

/-- Witness for C2 at an RGBA image with `export_alpha_as_height` set. -/
theorem c2_height_output_witness :
    ∃ aoP rP mP hres,
      (unpack_orm (Except.ok ⟨Mode.RGBA, [], [[10, 20, 30, 40]]⟩) "t.png" "out"
          "MRA (R=Metallic, G=Roughness, B=AO)" false false true ⟨[], []⟩).2 =
        Except.ok (aoP, rP, mP, hres) ∧
      (hres.isSome = true ↔ true = true ∧
        (⟨Mode.RGBA, [], [[10, 20, 30, 40]]⟩ : Img).mode.numChannels = 4) ∧
      (true = true → (⟨Mode.RGBA, [], [[10, 20, 30, 40]]⟩ : Img).mode.numChannels = 4 →
        hres = some (outPath "out" "t.png" "_Height.png") ∧
        (unpack_orm (Except.ok ⟨Mode.RGBA, [], [[10, 20, 30, 40]]⟩) "t.png" "out"
            "MRA (R=Metallic, G=Roughness, B=AO)" false false true ⟨[], []⟩).1.readFile
          (outPath "out" "t.png" "_Height.png") =
          some ((⟨Mode.RGBA, [], [[10, 20, 30, 40]]⟩ : Img).chan 3) ∧
        (∀ v ∈ (⟨Mode.RGBA, [], [[10, 20, 30, 40]]⟩ : Img).chan 3, v < 256)) :=
  c2_height_output ⟨Mode.RGBA, [], [[10, 20, 30, 40]]⟩ "t.png" "out"
    "MRA (R=Metallic, G=Roughness, B=AO)" "B" "G" "R" false false true ⟨[], []⟩
    (by decide) (by decide) (by decide) (by decide) (by decide)

/-- C9: the AO file `unpack_orm` writes is independent of both invert
flags — two runs on the same image, preset and filesystem that differ
only in `invert_roughness` and `invert_metallic` read back identical AO
contents, namely the preset's AO source channel of the normalized
image. -/
theorem c9_ao_invariant_under_inversion (img : Img) (ip D pname af rf mf : String)
    (ir1 im1 ir2 im2 eh : Bool) (fs : FS)
    (hp : dictGet PRESETS pname = some (af, rf, mf)) (hD : goodDir D)
    (hfs : fs.dirs.contains D = true ∨ fs.pathExists D = false) :
    (unpack_orm (Except.ok img) ip D pname ir1 im1 eh fs).1.readFile
        (outPath D ip "_AO.png") =
      (unpack_orm (Except.ok img) ip D pname ir2 im2 eh fs).1.readFile
        (outPath D ip "_AO.png") ∧
    (unpack_orm (Except.ok img) ip D pname ir1 im1 eh fs).1.readFile
        (outPath D ip "_AO.png") =
      some ((load_image_rgb_or_rgba img).chan (letterIdx af)) := by
  have hm1 := unpack_orm_ok img ip D pname af rf mf ir1 im1 eh fs hp hD hfs
  have hm2 := unpack_orm_ok img ip D pname af rf mf ir2 im2 eh fs hp hD hfs
  have hr1 := readFile_unpack D ip hD
    (eh = true ∧ (load_image_rgb_or_rgba img).mode = Mode.RGBA)
    ((load_image_rgb_or_rgba img).chan 3)
    (applyInv im1 ((load_image_rgb_or_rgba img).chan (letterIdx mf)))
    (applyInv ir1 ((load_image_rgb_or_rgba img).chan (letterIdx rf)))
    ((load_image_rgb_or_rgba img).chan (letterIdx af)) (mkdirsIf fs D).files
  have hr2 := readFile_unpack D ip hD
    (eh = true ∧ (load_image_rgb_or_rgba img).mode = Mode.RGBA)
    ((load_image_rgb_or_rgba img).chan 3)
    (applyInv im2 ((load_image_rgb_or_rgba img).chan (letterIdx mf)))
    (applyInv ir2 ((load_image_rgb_or_rgba img).chan (letterIdx rf)))
    ((load_image_rgb_or_rgba img).chan (letterIdx af)) (mkdirsIf fs D).files
  have e1 : (unpack_orm (Except.ok img) ip D pname ir1 im1 eh fs).1.readFile
      (outPath D ip "_AO.png") = some ((load_image_rgb_or_rgba img).chan (letterIdx af)) := by
    rw [hm1]
    exact hr1.1
  have e2 : (unpack_orm (Except.ok img) ip D pname ir2 im2 eh fs).1.readFile
      (outPath D ip "_AO.png") = some ((load_image_rgb_or_rgba img).chan (letterIdx af)) := by
    rw [hm2]
    exact hr2.1
  exact ⟨e1.trans e2.symm, e1⟩

/-- Witness for C9: inverting both flags in one run and neither in the
other leaves the AO file identical. -/
theorem c9_ao_invariant_witness :
    (unpack_orm (Except.ok ⟨Mode.RGB, [], [[5, 6, 7]]⟩) "t.png" "out"
        "RMA (R=Roughness, G=Metallic, B=AO)" false false false ⟨[], []⟩).1.readFile
      (outPath "out" "t.png" "_AO.png") =
      (unpack_orm (Except.ok ⟨Mode.RGB, [], [[5, 6, 7]]⟩) "t.png" "out"
          "RMA (R=Roughness, G=Metallic, B=AO)" true true false ⟨[], []⟩).1.readFile
        (outPath "out" "t.png" "_AO.png") ∧
    (unpack_orm (Except.ok ⟨Mode.RGB, [], [[5, 6, 7]]⟩) "t.png" "out"
        "RMA (R=Roughness, G=Metallic, B=AO)" false false false ⟨[], []⟩).1.readFile
      (outPath "out" "t.png" "_AO.png") =
      some ((load_image_rgb_or_rgba ⟨Mode.RGB, [], [[5, 6, 7]]⟩).chan (letterIdx "B")) :=
  c9_ao_invariant_under_inversion ⟨Mode.RGB, [], [[5, 6, 7]]⟩ "t.png" "out"
    "RMA (R=Roughness, G=Metallic, B=AO)" "B" "R" "G" false false true true false ⟨[], []⟩
    (by decide) (by decide) (by decide)

theorem strEq_of_data (a b : String) (h : a.data = b.data) : a = b := by
  cases a
  cases b
  cases h
  rfl

theorem outPath_concat (D ip sfx : String) (hD : goodDir D) (hsfx : '/' ∉ sfx.data) :
    outPath D ip sfx = D ++ "/" ++ splitextRoot (basename ip) ++ sfx := by
  have hbase : '/' ∉ (splitextRoot (basename ip)).data :=
    splitextRoot_no_slash _ (basename_no_slash ip)
  unfold outPath
  rw [joinPath_eq D _ hD (no_slash_append _ _ hbase hsfx)]
  apply strEq_of_data
  show D.data ++ '/' :: (splitextRoot (basename ip) ++ sfx).data = _
  rw [strData_append, strData_append, strData_append, strData_append]
  show D.data ++ '/' :: ((splitextRoot (basename ip)).data ++ sfx.data) =
    ((D.data ++ ['/']) ++ (splitextRoot (basename ip)).data) ++ sfx.data
  simp

/-- C6: the paths a (successful) `unpack_orm` call returns are exactly
`D/name_AO.png`, `D/name_Roughness.png`, `D/name_Metallic.png` and —
only when height is exported — `D/name_Height.png`, where `name` is the
input file's base name stripped of its extension. -/
theorem c6_output_paths (img : Img) (ip D pname af rf mf : String)
    (ir im eh : Bool) (fs : FS)
    (hp : dictGet PRESETS pname = some (af, rf, mf)) (hD : goodDir D)
    (hfs : fs.dirs.contains D = true ∨ fs.pathExists D = false) :
    (unpack_orm (Except.ok img) ip D pname ir im eh fs).2 =
      Except.ok
        (D ++ "/" ++ splitextRoot (basename ip) ++ "_AO.png",
         D ++ "/" ++ splitextRoot (basename ip) ++ "_Roughness.png",
         D ++ "/" ++ splitextRoot (basename ip) ++ "_Metallic.png",
         if eh = true ∧ (load_image_rgb_or_rgba img).mode = Mode.RGBA then
           some (D ++ "/" ++ splitextRoot (basename ip) ++ "_Height.png")
         else none) := by
  have hmaster := unpack_orm_ok img ip D pname af rf mf ir im eh fs hp hD hfs
  rw [hmaster, ← outPath_concat D ip "_AO.png" hD (by decide),
    ← outPath_concat D ip "_Roughness.png" hD (by decide),
    ← outPath_concat D ip "_Metallic.png" hD (by decide),
    ← outPath_concat D ip "_Height.png" hD (by decide)]

/-- Witness for C6 on a nested input path with an extension to strip. -/
theorem c6_output_paths_witness :
    (unpack_orm (Except.ok ⟨Mode.RGB, [], [[1, 2, 3]]⟩) "assets/rock.tga" "out"
        "ORM (R=AO, G=Roughness, B=Metallic)" false false false ⟨[], []⟩).2 =
      Except.ok
        ("out" ++ "/" ++ splitextRoot (basename "assets/rock.tga") ++ "_AO.png",
         "out" ++ "/" ++ splitextRoot (basename "assets/rock.tga") ++ "_Roughness.png",
         "out" ++ "/" ++ splitextRoot (basename "assets/rock.tga") ++ "_Metallic.png",
         if false = true ∧ (load_image_rgb_or_rgba ⟨Mode.RGB, [], [[1, 2, 3]]⟩).mode = Mode.RGBA
         then some ("out" ++ "/" ++ splitextRoot (basename "assets/rock.tga") ++ "_Height.png")
         else none) :=
  c6_output_paths ⟨Mode.RGB, [], [[1, 2, 3]]⟩ "assets/rock.tga" "out"
    "ORM (R=AO, G=Roughness, B=Metallic)" "R" "G" "B" false false false ⟨[], []⟩
    (by decide) (by decide) (by decide)

/-- Counterexample to C3 as stated: an unknown preset does fail with the
unknown-preset error and writes no output file, but the call creates the
absent output directory before validating the preset, so "no directories
created" is false: starting from an empty filesystem the directory list
is no longer empty. -/
theorem c3_counterexample :
    (unpack_orm (Except.ok ⟨Mode.RGB, [], [[1, 2, 3]]⟩) "a.png" "out" "NOPE"
        false false false ⟨[], []⟩).2 = Except.error (UErr.unknownPreset "NOPE") ∧
    (unpack_orm (Except.ok ⟨Mode.RGB, [], [[1, 2, 3]]⟩) "a.png" "out" "NOPE"
        false false false ⟨[], []⟩).1.files = [] ∧
    ¬ (unpack_orm (Except.ok ⟨Mode.RGB, [], [[1, 2, 3]]⟩) "a.png" "out" "NOPE"
        false false false ⟨[], []⟩).1.dirs = [] := by
  decide

theorem unpack_orm_unknown (img : Img) (ip D pname : String) (ir im eh : Bool) (fs : FS)
    (hp : dictGet PRESETS pname = none) :
    unpack_orm (Except.ok img) ip D pname ir im eh fs =
      (mkdirsIf fs D, Except.error (UErr.unknownPreset pname)) := by
  unfold unpack_orm
  dsimp only
  rw [hp]

theorem mkdirsIf_files (fs : FS) (d : String) : (mkdirsIf fs d).files = fs.files := by
  unfold mkdirsIf
  split <;> rfl

/-- C3 (amended): for every preset name not in the registry, `unpack_orm`
fails with the unknown-preset error, the name is validated before any
channel work begins so no output file is written — but the output
directory has already been created if it was absent (it is the only
filesystem effect of the failing call). -/
theorem c3_unknown_preset (img : Img) (ip D pname : String) (ir im eh : Bool) (fs : FS)
    (hp : dictGet PRESETS pname = none) :
    unpack_orm (Except.ok img) ip D pname ir im eh fs =
      (mkdirsIf fs D, Except.error (UErr.unknownPreset pname)) ∧
    (mkdirsIf fs D).files = fs.files :=
  ⟨unpack_orm_unknown img ip D pname ir im eh fs hp, mkdirsIf_files fs D⟩

/-- Witness for C3 (amended) at a concrete unregistered name. -/
theorem c3_unknown_preset_witness :
    unpack_orm (Except.ok ⟨Mode.RGB, [], [[1, 2, 3]]⟩) "a.png" "out" "ORM" false false false
        ⟨["x"], [("f", [0])]⟩ =
      (mkdirsIf ⟨["x"], [("f", [0])]⟩ "out", Except.error (UErr.unknownPreset "ORM")) ∧
    (mkdirsIf (⟨["x"], [("f", [0])]⟩ : FS) "out").files = [("f", [0])] :=
  c3_unknown_preset ⟨Mode.RGB, [], [[1, 2, 3]]⟩ "a.png" "out" "ORM" false false false
    ⟨["x"], [("f", [0])]⟩ (by decide)

/-- C10: `unpack_orm` ensures the output directory before decoding the
input or validating the preset, so a call that fails for either reason
still leaves the output directory existing — created anew when it was
absent. -/
theorem c10_outdir_created_on_error (decoded : Except String Img) (ip D pname : String)
    (ir im eh : Bool) (fs : FS)
    (herr : (∃ m, decoded = Except.error m) ∨ dictGet PRESETS pname = none) :
    (∃ e, (unpack_orm decoded ip D pname ir im eh fs).2 = Except.error e) ∧
    (unpack_orm decoded ip D pname ir im eh fs).1.pathExists D = true ∧
    (fs.pathExists D = false →
      (unpack_orm decoded ip D pname ir im eh fs).1.dirs.contains D = true) := by
  have hmk : ∀ gs : FS, gs = mkdirsIf fs D →
      gs.pathExists D = true ∧ (fs.pathExists D = false → gs.dirs.contains D = true) := by
    intro gs hgs
    subst hgs
    unfold mkdirsIf
    by_cases hex : fs.pathExists D = true
    · rw [if_pos hex]
      exact ⟨hex, fun h => absurd hex (by rw [h]; exact Bool.false_ne_true)⟩
    · rw [if_neg hex]
      constructor
      · unfold FS.pathExists
        simp
      · intro _
        simp
  rcases decoded with m | raw
  · have hres : unpack_orm (Except.error m) ip D pname ir im eh fs =
        (mkdirsIf fs D, Except.error (UErr.decodeError m)) := by
      unfold unpack_orm
      dsimp only
    rw [hres]
    exact ⟨⟨UErr.decodeError m, rfl⟩, hmk _ rfl⟩
  · rcases herr with ⟨m, hm⟩ | hp
    · exact absurd hm (by simp)
    · rw [unpack_orm_unknown raw ip D pname ir im eh fs hp]
      exact ⟨⟨UErr.unknownPreset pname, rfl⟩, hmk _ rfl⟩

/-- Witness for C10: a decode failure into an empty filesystem still
creates the output directory. -/
theorem c10_outdir_created_witness :
    (∃ e, (unpack_orm (Except.error "cannot identify image file") "a.png" "out"
        DEFAULT_PRESET false false false ⟨[], []⟩).2 = Except.error e) ∧
    (unpack_orm (Except.error "cannot identify image file") "a.png" "out"
        DEFAULT_PRESET false false false ⟨[], []⟩).1.pathExists "out" = true ∧
    ((⟨[], []⟩ : FS).pathExists "out" = false →
      (unpack_orm (Except.error "cannot identify image file") "a.png" "out"
          DEFAULT_PRESET false false false ⟨[], []⟩).1.dirs.contains "out" = true) :=
  c10_outdir_created_on_error (Except.error "cannot identify image file") "a.png" "out"
    DEFAULT_PRESET false false false ⟨[], []⟩
    (Or.inl ⟨"cannot identify image file", rfl⟩)

/-- Counterexample to C7 as stated: the registry has no entry literally
named "ORM", "MRA" or "RMA" — the registered names are the longer
descriptive strings. -/
theorem c7_counterexample :
    dictGet PRESETS "ORM" = none ∧ dictGet PRESETS "MRA" = none ∧
    dictGet PRESETS "RMA" = none := by
  decide

/-- C7 (amended): the registry contains exactly three entries, whose
names begin with "ORM", "MRA" and "RMA" (their full names are the
descriptive strings below), mapped respectively to the
(AO, Roughness, Metallic) source triples (R,G,B), (B,G,R) and (B,R,G);
the ORM entry is the first and is the default preset name used by
`unpack_orm` and the drivers. -/
theorem c7_presets_registry :
    PRESETS.map Prod.fst =
      ["ORM (R=AO, G=Roughness, B=Metallic)", "MRA (R=Metallic, G=Roughness, B=AO)",
       "RMA (R=Roughness, G=Metallic, B=AO)"] ∧
    dictGet PRESETS "ORM (R=AO, G=Roughness, B=Metallic)" = some ("R", "G", "B") ∧
    dictGet PRESETS "MRA (R=Metallic, G=Roughness, B=AO)" = some ("B", "G", "R") ∧
    dictGet PRESETS "RMA (R=Roughness, G=Metallic, B=AO)" = some ("B", "R", "G") ∧
    "ORM (R=AO, G=Roughness, B=Metallic)".data.take 3 = "ORM".data ∧
    "MRA (R=Metallic, G=Roughness, B=AO)".data.take 3 = "MRA".data ∧
    "RMA (R=Roughness, G=Metallic, B=AO)".data.take 3 = "RMA".data ∧
    (PRESETS.map Prod.fst).head? = some DEFAULT_PRESET ∧
    dictGet PRESETS DEFAULT_PRESET = some ("R", "G", "B") := by
  decide

theorem getD_mem_or {α : Type} (l : List α) (i : Nat) (d : α) :
    l.getD i d ∈ l ∨ l.getD i d = d := by
  induction l generalizing i with
  | nil => right; simp [List.getD_nil]
  | cons x xs ih =>
    cases i with
    | zero => left; simp
    | succ j =>
      rw [List.getD_cons_succ]
      rcases ih j with h | h
      · exact Or.inl (List.mem_cons_of_mem _ h)
      · exact Or.inr h

theorem paletteRGB_lt (pal : List (Nat × Nat × Nat))
    (hpal : ∀ e ∈ pal, e.1 < 256 ∧ e.2.1 < 256 ∧ e.2.2 < 256) (i : Nat) :
    (paletteRGB pal i).1 < 256 ∧ (paletteRGB pal i).2.1 < 256 ∧ (paletteRGB pal i).2.2 < 256 := by
  unfold paletteRGB
  rcases getD_mem_or pal i (0, 0, 0) with h | h
  · exact hpal _ h
  · rw [h]
    decide

/-- Pillow's luma transform keeps 8-bit inputs 8-bit. -/
theorem lumin_lt (r g b : Nat) (hr : r < 256) (hg : g < 256) (hb : b < 256) :
    lumin r g b < 256 := by
  unfold lumin
  apply Nat.div_lt_of_lt_mul
  omega

theorem pxToL_lt (m : Mode) (pal : List (Nat × Nat × Nat)) (px : List Nat)
    (hpx : ∀ v ∈ px, v < 256)
    (hpal : ∀ e ∈ pal, e.1 < 256 ∧ e.2.1 < 256 ∧ e.2.2 < 256) :
    ∀ v ∈ pxToL m pal px, v < 256 := by
  have h0 := getD_lt px hpx
  have hb := paletteRGB_lt pal hpal (px.getD 0 0)
  cases m <;> intro v hv <;>
    simp only [pxToL, List.mem_cons, List.not_mem_nil, or_false] at hv <;>
    subst hv <;>
    first
      | exact h0 0
      | exact lumin_lt _ _ _ hb.1 hb.2.1 hb.2.2
      | exact lumin_lt _ _ _ (h0 0) (h0 1) (h0 2)

/-- Counterexample to C8 as stated: with the destination's directory
absent, `save_grayscale` fails and creates nothing — it never creates
the destination directory. -/
theorem c8_counterexample :
    (save_grayscale ⟨Mode.L, [], [[7]]⟩ "out/a.png" ⟨[], []⟩).2 =
      Except.error (UErr.ioError "cannot write") ∧
    (save_grayscale ⟨Mode.L, [], [[7]]⟩ "out/a.png" ⟨[], []⟩).1 = ⟨[], []⟩ := by
  decide

/-- C8 (amended): `save_grayscale` converts the buffer to single-channel
8-bit form (PIL mode L) if it is not already and writes its samples at
the destination (losslessly — every call site names a `.png` path); it
does NOT create the destination path's directory: the directory set is
always unchanged, and when the directory is absent the save fails
leaving the filesystem untouched. Directory creation is its callers'
job, done before calling. -/
theorem c8_save_grayscale (ch : Img) (p : String) (fs : FS) (hval : ch.valid) :
    (save_grayscale ch p fs).1.dirs = fs.dirs ∧
    (if ch.mode = Mode.L then ch else ch.convert Mode.L).mode = Mode.L ∧
    (dirname p = "" ∨ fs.dirs.contains (dirname p) = true →
      save_grayscale ch p fs =
        (⟨fs.dirs,
          (p, (if ch.mode = Mode.L then ch else ch.convert Mode.L).pixels.map
            (fun px => px.getD 0 0)) :: fs.files⟩, Except.ok ()) ∧
      ∀ v ∈ (if ch.mode = Mode.L then ch else ch.convert Mode.L).pixels.map
          (fun px => px.getD 0 0), v < 256) ∧
    (¬ (dirname p = "" ∨ fs.dirs.contains (dirname p) = true) →
      save_grayscale ch p fs = (fs, Except.error (UErr.ioError "cannot write"))) := by
  refine ⟨save_grayscale_dirs ch p fs, ?_, ?_, ?_⟩
  · split
    · next h => exact h
    · rfl
  · intro h
    constructor
    · unfold save_grayscale
      dsimp only
      rw [if_pos h]
    · intro v hv
      simp only [List.mem_map] at hv
      obtain ⟨row, hrow, hs⟩ := hv
      rw [← hs]
      split at hrow
      · exact getD_lt row (hval.1 row hrow).2 0
      · simp only [Img.convert, List.mem_map] at hrow
        obtain ⟨row0, hrow0, hr0⟩ := hrow
        rw [← hr0]
        exact getD_lt _ (pxToL_lt ch.mode ch.palette row0 (hval.1 row0 hrow0).2 hval.2) 0
  · intro h
    unfold save_grayscale
    dsimp only
    rw [if_neg h]

/-- Witness for C8 (amended) on an RGB buffer (conversion exercised) and
an existing destination directory. -/
theorem c8_save_grayscale_witness :
    (save_grayscale ⟨Mode.RGB, [], [[255, 0, 0]]⟩ "out/a.png" ⟨["out"], []⟩).1.dirs = ["out"] ∧
    (if (⟨Mode.RGB, [], [[255, 0, 0]]⟩ : Img).mode = Mode.L then
      (⟨Mode.RGB, [], [[255, 0, 0]]⟩ : Img)
    else (⟨Mode.RGB, [], [[255, 0, 0]]⟩ : Img).convert Mode.L).mode = Mode.L ∧
    (dirname "out/a.png" = "" ∨ (["out"] : List String).contains (dirname "out/a.png") = true →
      save_grayscale ⟨Mode.RGB, [], [[255, 0, 0]]⟩ "out/a.png" ⟨["out"], []⟩ =
        (⟨["out"],
          ("out/a.png", (if (⟨Mode.RGB, [], [[255, 0, 0]]⟩ : Img).mode = Mode.L then
              (⟨Mode.RGB, [], [[255, 0, 0]]⟩ : Img)
            else (⟨Mode.RGB, [], [[255, 0, 0]]⟩ : Img).convert Mode.L).pixels.map
            (fun px => px.getD 0 0)) :: []⟩, Except.ok ()) ∧
      ∀ v ∈ (if (⟨Mode.RGB, [], [[255, 0, 0]]⟩ : Img).mode = Mode.L then
            (⟨Mode.RGB, [], [[255, 0, 0]]⟩ : Img)
          else (⟨Mode.RGB, [], [[255, 0, 0]]⟩ : Img).convert Mode.L).pixels.map
          (fun px => px.getD 0 0), v < 256) ∧
    (¬ (dirname "out/a.png" = "" ∨
        (["out"] : List String).contains (dirname "out/a.png") = true) →
      save_grayscale ⟨Mode.RGB, [], [[255, 0, 0]]⟩ "out/a.png" ⟨["out"], []⟩ =
        (⟨["out"], []⟩, Except.error (UErr.ioError "cannot write"))) :=
  c8_save_grayscale ⟨Mode.RGB, [], [[255, 0, 0]]⟩ "out/a.png" ⟨["out"], []⟩ (by decide)

theorem pxToRGBA_spec (m : Mode) (pal : List (Nat × Nat × Nat)) (px : List Nat)
    (hpx : ∀ v ∈ px, v < 256)
    (hpal : ∀ e ∈ pal, e.1 < 256 ∧ e.2.1 < 256 ∧ e.2.2 < 256) :
    (pxToRGBA m pal px).length = 4 ∧ ∀ v ∈ pxToRGBA m pal px, v < 256 := by
  have h0 := getD_lt px hpx
  have hb := paletteRGB_lt pal hpal (px.getD 0 0)
  cases m <;> refine ⟨rfl, ?_⟩ <;> intro v hv <;>
    simp only [pxToRGBA, List.mem_cons, List.not_mem_nil, or_false] at hv <;>
    rcases hv with rfl | rfl | rfl | rfl <;>
    first
      | exact h0 0
      | exact h0 1
      | exact h0 2
      | exact h0 3
      | exact hb.1
      | exact hb.2.1
      | exact hb.2.2
      | decide

theorem pxToRGB_spec (m : Mode) (pal : List (Nat × Nat × Nat)) (px : List Nat)
    (hpx : ∀ v ∈ px, v < 256)
    (hpal : ∀ e ∈ pal, e.1 < 256 ∧ e.2.1 < 256 ∧ e.2.2 < 256) :
    (pxToRGB m pal px).length = 3 ∧ ∀ v ∈ pxToRGB m pal px, v < 256 := by
  have h0 := getD_lt px hpx
  have hb := paletteRGB_lt pal hpal (px.getD 0 0)
  cases m <;> refine ⟨rfl, ?_⟩ <;> intro v hv <;>
    simp only [pxToRGB, List.mem_cons, List.not_mem_nil, or_false] at hv <;>
    rcases hv with rfl | rfl | rfl <;>
    first
      | exact h0 0
      | exact h0 1
      | exact h0 2
      | exact hb.1
      | exact hb.2.1
      | exact hb.2.2

theorem convert_RGBA_valid (img : Img) (hval : img.valid) : (img.convert Mode.RGBA).valid := by
  constructor
  · intro px hpx
    simp only [Img.convert, List.mem_map] at hpx
    obtain ⟨row, hrow, hr⟩ := hpx
    rw [← hr]
    exact pxToRGBA_spec img.mode img.palette row (hval.1 row hrow).2 hval.2
  · intro e he
    simp [Img.convert] at he

theorem convert_RGB_valid (img : Img) (hval : img.valid) : (img.convert Mode.RGB).valid := by
  constructor
  · intro px hpx
    simp only [Img.convert, List.mem_map] at hpx
    obtain ⟨row, hrow, hr⟩ := hpx
    rw [← hr]
    exact pxToRGB_spec img.mode img.palette row (hval.1 row hrow).2 hval.2
  · intro e he
    simp [Img.convert] at he

theorem load_valid (raw : Img) (hval : raw.valid) : (load_image_rgb_or_rgba raw).valid := by
  unfold load_image_rgb_or_rgba
  dsimp only
  by_cases h1 : raw.mode = Mode.P ∨ raw.mode = Mode.LA
  · rw [if_pos h1]
    exact convert_RGBA_valid raw hval
  · rw [if_neg h1]
    by_cases h2 : raw.mode = Mode.RGBA
    · rw [if_pos h2]
      exact hval
    · rw [if_neg h2]
      by_cases h3 : raw.mode = Mode.RGB
      · rw [if_neg (by simp [h3])]
        exact hval
      · rw [if_pos h3]
        exact convert_RGB_valid raw hval

/-- C5: the normalizer output is always RGB or RGBA with exactly 3 or 4
8-bit channels; paletted (mode P) and luminance-alpha inputs become
4-channel RGBA; inputs already RGB or RGBA pass through unchanged; every
other mode becomes 3-channel RGB. -/
theorem c5_normalizer (raw : Img) (hval : raw.valid) :
    ((load_image_rgb_or_rgba raw).mode = Mode.RGB ∨
      (load_image_rgb_or_rgba raw).mode = Mode.RGBA) ∧
    (load_image_rgb_or_rgba raw).valid ∧
    (raw.mode = Mode.P ∨ raw.mode = Mode.LA →
      (load_image_rgb_or_rgba raw).mode = Mode.RGBA) ∧
    (raw.mode = Mode.RGB ∨ raw.mode = Mode.RGBA → load_image_rgb_or_rgba raw = raw) ∧
    (¬ (raw.mode = Mode.P ∨ raw.mode = Mode.LA ∨ raw.mode = Mode.RGB ∨
        raw.mode = Mode.RGBA) → (load_image_rgb_or_rgba raw).mode = Mode.RGB) ∧
    (∀ px ∈ (load_image_rgb_or_rgba raw).pixels,
      (px.length = 3 ∨ px.length = 4) ∧ ∀ v ∈ px, v < 256) := by
  have hm := load_mode raw
  have hv := load_valid raw hval
  refine ⟨hm, hv, ?_, load_passthrough raw, ?_, ?_⟩
  · intro h
    unfold load_image_rgb_or_rgba
    dsimp only
    rw [if_pos h]
    rfl
  · intro h
    simp only [not_or] at h
    unfold load_image_rgb_or_rgba
    dsimp only
    rw [if_neg (not_or.mpr ⟨h.1, h.2.1⟩), if_neg h.2.2.2, if_pos h.2.2.1]
    rfl
  · intro px hpx
    have := hv.1 px hpx
    refine ⟨?_, this.2⟩
    rcases hm with h | h <;> rw [this.1, h]
    · exact Or.inl rfl
    · exact Or.inr rfl

/-- Witness for C5 at a paletted image. -/
theorem c5_normalizer_witness :
    ((load_image_rgb_or_rgba ⟨Mode.P, [(9, 8, 7)], [[0], [1]]⟩).mode = Mode.RGB ∨
      (load_image_rgb_or_rgba ⟨Mode.P, [(9, 8, 7)], [[0], [1]]⟩).mode = Mode.RGBA) ∧
    (load_image_rgb_or_rgba ⟨Mode.P, [(9, 8, 7)], [[0], [1]]⟩).valid ∧
    ((⟨Mode.P, [(9, 8, 7)], [[0], [1]]⟩ : Img).mode = Mode.P ∨
      (⟨Mode.P, [(9, 8, 7)], [[0], [1]]⟩ : Img).mode = Mode.LA →
      (load_image_rgb_or_rgba ⟨Mode.P, [(9, 8, 7)], [[0], [1]]⟩).mode = Mode.RGBA) ∧
    ((⟨Mode.P, [(9, 8, 7)], [[0], [1]]⟩ : Img).mode = Mode.RGB ∨
      (⟨Mode.P, [(9, 8, 7)], [[0], [1]]⟩ : Img).mode = Mode.RGBA →
      load_image_rgb_or_rgba ⟨Mode.P, [(9, 8, 7)], [[0], [1]]⟩ =
        ⟨Mode.P, [(9, 8, 7)], [[0], [1]]⟩) ∧
    (¬ ((⟨Mode.P, [(9, 8, 7)], [[0], [1]]⟩ : Img).mode = Mode.P ∨
        (⟨Mode.P, [(9, 8, 7)], [[0], [1]]⟩ : Img).mode = Mode.LA ∨
        (⟨Mode.P, [(9, 8, 7)], [[0], [1]]⟩ : Img).mode = Mode.RGB ∨
        (⟨Mode.P, [(9, 8, 7)], [[0], [1]]⟩ : Img).mode = Mode.RGBA) →
      (load_image_rgb_or_rgba ⟨Mode.P, [(9, 8, 7)], [[0], [1]]⟩).mode = Mode.RGB) ∧
    (∀ px ∈ (load_image_rgb_or_rgba ⟨Mode.P, [(9, 8, 7)], [[0], [1]]⟩).pixels,
      (px.length = 3 ∨ px.length = 4) ∧ ∀ v ∈ px, v < 256) :=
  c5_normalizer ⟨Mode.P, [(9, 8, 7)], [[0], [1]]⟩ (by decide)

theorem filter_map_join (p : String) (names : List String)
    (h : ∀ n ∈ names, '/' ∉ n.data) :
    (names.filter eligibleName).map (fun n => joinPath p n) =
      (names.map (fun n => joinPath p n)).filter (fun q => eligibleName (basename q)) := by
  induction names with
  | nil => rfl
  | cons n rest ih =>
    have hn : '/' ∉ n.data := h n (List.mem_cons_self _ _)
    have hb : basename (joinPath p n) = n := basename_join p n hn
    have ihr := ih (fun m hm => h m (List.mem_cons_of_mem _ hm))
    by_cases he : eligibleName n = true
    · rw [List.filter_cons, if_pos he, List.map_cons, List.map_cons, List.filter_cons,
        if_pos (by rw [hb]; exact he), ihr]
    · rw [List.filter_cons, if_neg he, List.map_cons, List.filter_cons,
        if_neg (by rw [hb]; exact he), ihr]

/-- Batch discovery selects exactly the files under the root whose
extension, lowercased, is supported. -/
theorem iter_eq_filter (folder : String) (t : DirTree)
    (hwf : ∀ pr ∈ t.walk folder, ∀ n ∈ pr.2, '/' ∉ n.data) :
    iter_images_in_folder folder t =
      (allFilesUnder folder t).filter (fun q => eligibleName (basename q)) := by
  unfold iter_images_in_folder allFilesUnder
  have go : ∀ L : List (String × List String), (∀ pr ∈ L, ∀ n ∈ pr.2, '/' ∉ n.data) →
      L.flatMap (fun pr => (pr.2.filter eligibleName).map (fun name => joinPath pr.1 name)) =
        (L.flatMap (fun pr => pr.2.map (fun name => joinPath pr.1 name))).filter
          (fun q => eligibleName (basename q)) := by
    intro L
    induction L with
    | nil => intro _; rfl
    | cons pr rest ih =>
      intro hw
      rw [List.flatMap_cons, List.flatMap_cons, List.filter_append,
        ih (fun x hx => hw x (List.mem_cons_of_mem _ hx)),
        filter_map_join pr.1 pr.2 (hw pr (List.mem_cons_self _ _))]
  exact go (t.walk folder) hwf

theorem batchLoop_ok (decode : String → Except String Img) (D pname af rf mf : String)
    (ir im ah : Bool)
    (hp : dictGet PRESETS pname = some (af, rf, mf)) (hD : goodDir D)
    (hdec : ∀ p, ∃ i, decode p = Except.ok i) :
    ∀ (l : List String) (fs : FS) (n : Nat)
      (fr : Option (String × String × String × Option String)),
      fs.dirs.contains D = true →
      ∃ fs2 fr2,
        batchLoop decode D pname ir im ah l fs n fr = (fs2, Except.ok (n + l.length, fr2)) ∧
        fs2.dirs.contains D = true := by
  intro l
  induction l with
  | nil =>
    intro fs n fr hc
    exact ⟨fs, fr, by simp [batchLoop], hc⟩
  | cons p rest ih =>
    intro fs n fr hc
    obtain ⟨i, hi⟩ := hdec p
    have hmaster := unpack_orm_ok i p D pname af rf mf ir im ah fs hp hD (Or.inl hc)
    have hc2 : (mkdirsIf fs D).dirs.contains D = true := mkdirsIf_contains fs D (Or.inl hc)
    obtain ⟨fs2, fr2, hrec, hcf⟩ := ih
      ⟨(mkdirsIf fs D).dirs,
        (if ah = true ∧ (load_image_rgb_or_rgba i).mode = Mode.RGBA then
          [(outPath D p "_Height.png", (load_image_rgb_or_rgba i).chan 3)]
        else []) ++
        (outPath D p "_Metallic.png",
          applyInv im ((load_image_rgb_or_rgba i).chan (letterIdx mf))) ::
        (outPath D p "_Roughness.png",
          applyInv ir ((load_image_rgb_or_rgba i).chan (letterIdx rf))) ::
        (outPath D p "_AO.png", (load_image_rgb_or_rgba i).chan (letterIdx af)) ::
        (mkdirsIf fs D).files⟩
      (n + 1)
      (match fr with
        | some r0 => some r0
        | none => some (outPath D p "_AO.png", outPath D p "_Roughness.png",
            outPath D p "_Metallic.png",
            if ah = true ∧ (load_image_rgb_or_rgba i).mode = Mode.RGBA then
              some (outPath D p "_Height.png")
            else none))
      hc2
    refine ⟨fs2, fr2, ?_, hcf⟩
    simp only [batchLoop]
    rw [hi, hmaster]
    dsimp only
    rw [hrec]
    have harith : n + 1 + rest.length = n + (p :: rest).length := by
      simp [List.length_cons]
      omega
    rw [harith]

/-- C4: over any directory tree, the batch drivers process exactly the
files under the root whose extension is (case-insensitively) one of the
supported six, returning their number as the count; a tree with zero
eligible files yields count 0 with an absent first result and no
error. -/
theorem c4_batch_traversal (decode : String → Except String Img) (folder D pname : String)
    (t : DirTree) (af rf mf : String) (ir im ah : Bool) (fs : FS)
    (hwf : ∀ pr ∈ t.walk folder, ∀ n ∈ pr.2, '/' ∉ n.data)
    (hp : dictGet PRESETS pname = some (af, rf, mf)) (hD : goodDir D)
    (hfs : fs.dirs.contains D = true ∨ fs.pathExists D = false)
    (hdec : ∀ p, ∃ i, decode p = Except.ok i) :
    ∃ fs2 fr,
      run_batch decode folder t D pname ir im ah fs =
        (fs2, Except.ok
          (((allFilesUnder folder t).filter (fun q => eligibleName (basename q))).length,
            fr)) ∧
      (((allFilesUnder folder t).filter (fun q => eligibleName (basename q))).length = 0 →
        fr = none) := by
  have hiter := iter_eq_filter folder t hwf
  have hc1 := mkdirsIf_contains fs D hfs
  obtain ⟨fs2, fr2, hloop, _⟩ := batchLoop_ok decode D pname af rf mf ir im ah hp hD hdec
    (iter_images_in_folder folder t) (mkdirsIf fs D) 0 none hc1
  refine ⟨fs2, fr2, ?_, ?_⟩
  · unfold run_batch
    rw [hloop, hiter, Nat.zero_add]
  · intro h0
    have hnil : iter_images_in_folder folder t = [] := by
      rw [hiter]
      exact List.length_eq_zero.mp h0
    rw [hnil] at hloop
    simp only [batchLoop] at hloop
    have h2 := congrArg Prod.snd hloop
    simp only [List.length_nil, Nat.add_zero] at h2
    injection h2 with h3
    exact (congrArg Prod.snd h3).symm

/-- Witness for C4 on a two-level tree with two eligible files (one with
an uppercase extension) and one ineligible file. -/
theorem c4_batch_traversal_witness :
    ∃ fs2 fr,
      run_batch (fun _ => Except.ok ⟨Mode.RGB, [], [[1, 2, 3]]⟩) "root"
          (DirTree.node ["a.PNG", "notes.txt"] [("sub", DirTree.node ["b.jpg"] [])])
          "out" "ORM (R=AO, G=Roughness, B=Metallic)" false false false ⟨[], []⟩ =
        (fs2, Except.ok
          (((allFilesUnder "root"
              (DirTree.node ["a.PNG", "notes.txt"] [("sub", DirTree.node ["b.jpg"] [])])).filter
              (fun q => eligibleName (basename q))).length, fr)) ∧
      (((allFilesUnder "root"
          (DirTree.node ["a.PNG", "notes.txt"] [("sub", DirTree.node ["b.jpg"] [])])).filter
          (fun q => eligibleName (basename q))).length = 0 → fr = none) :=
  c4_batch_traversal (fun _ => Except.ok ⟨Mode.RGB, [], [[1, 2, 3]]⟩) "root" "out"
    "ORM (R=AO, G=Roughness, B=Metallic)"
    (DirTree.node ["a.PNG", "notes.txt"] [("sub", DirTree.node ["b.jpg"] [])])
    "R" "G" "B" false false false ⟨[], []⟩ (by decide) (by decide) (by decide) (by decide)
    (fun p => ⟨⟨Mode.RGB, [], [[1, 2, 3]]⟩, rfl⟩)

end UnpackORM
